import Mathlib

/-!
# Financial Ledger & Investment Lifecycle Engine — shallow embedding

A shallow embedding of the balance/ledger/workflow core of the `Real-wealth-`
backend (Express + Mongoose).  Monetary values are JavaScript numbers; every
amount appearing in the verified claims is an exact decimal, so amounts are
modelled as `ℚ`.  Timestamps (`Date.now()`) are modelled as `Nat` milliseconds
passed in explicitly as `now`.  Mongo documents become records in lists keyed
by a `Nat` id; `findById` becomes `List.find?`, `findByIdAndUpdate` /
`document.save` become keyed list updates, `findOneAndUpdate` updates the
first list element matching the filter (Mongo natural order = insertion
order, and states here append new documents at the end of the list).

Controller handlers return `Except Err St`: an HTTP error response (or a
thrown error caught by the handler, which aborts the Mongo session) is an
`Except.error`, leaving the caller with the unmodified pre-state — this
mirrors `session.abortTransaction()`.  Purely presentational response fields
(human-readable message strings, Socket.IO notifications, e-mails, pagination)
are not part of the embedded state; descriptive string metadata
(`description`, `plan_name`, user names, admin notes, rejection reasons) is
likewise omitted from ledger metadata, which keeps the id / amount fields the
claims are about.
-/

/-- Transaction `type` field (`src/controllers/*`): the ledger entry kinds. -/
inductive TxType where
  | deposit
  | withdrawal
  | investment
  | investmentEarnings
  | referralBonus
deriving DecidableEq, Repr

/-- Transaction `status` field. -/
inductive TxStatus where
  | pending
  | completed
  | failed
deriving DecidableEq, Repr

/-- Deposit `status` field (`src/unnamed/part_002` schema). -/
inductive DepStatus where
  | pending
  | approved
  | rejected
  | cancelled
deriving DecidableEq, Repr

/-- Withdrawal `status` field (`src/model/withdrawal.js` schema). -/
inductive WStatus where
  | pending
  | approved
  | rejected
  | processing
  | completed
deriving DecidableEq, Repr

/-- Investment `status` field. -/
inductive IStatus where
  | pending
  | active
  | completed
  | cancelled
  | rejected
deriving DecidableEq, Repr

/-- Typed errors: each constructor is one distinct error response of the
controllers (`InvalidAmount`, `InsufficientFunds`, `NotFound`,
`AlreadyProcessed`, the state-machine violation carrying both states, the
risk-profile rejection of `createAdvancedInvestment`, and the
"Plan ID and amount are required" falsy-input response). -/
inductive Err where
  | invalidAmount
  | insufficientFunds
  | notFound
  | alreadyProcessed
  | invalidTransition (from_ to_ : IStatus)
  | riskTooHigh
  | missingInput
deriving DecidableEq, Repr

/-- The correlation / numeric part of a Transaction's `metadata` object.
Fields that a given controller does not set stay `none`. -/
structure TxMeta where
  depositId : Option Nat := none
  withdrawalId : Option Nat := none
  investmentId : Option Nat := none
  referralUserId : Option Nat := none
  approvedBy : Option Nat := none
  fee : Option ℚ := none
  netAmount : Option ℚ := none
  investmentAmount : Option ℚ := none
  bonusPercentage : Option ℚ := none
  principal : Option ℚ := none
  earnings : Option ℚ := none
deriving DecidableEq, Repr

/-- A ledger entry (`models/Transaction`). -/
structure Txn where
  id : Nat
  user : Nat
  type : TxType
  amount : ℚ
  status : TxStatus
  meta : TxMeta
deriving DecidableEq, Repr

/-- A platform user (`models/User`): the balance owner. -/
structure User where
  id : Nat
  balance : ℚ
  totalInvested : ℚ := 0
  totalEarnings : ℚ := 0
  referralEarnings : ℚ := 0
  referredBy : Option Nat := none
  riskTolerance : String := "medium"
deriving DecidableEq, Repr

/-- A deposit request (`models/Deposit`, schema in `src/unnamed/part_002`). -/
structure Deposit where
  id : Nat
  user : Nat
  amount : ℚ
  paymentMethod : String
  status : DepStatus
  approvedBy : Option Nat := none
deriving DecidableEq, Repr

/-- A withdrawal request (`src/model/withdrawal.js`). -/
structure Withdrawal where
  id : Nat
  user : Nat
  amount : ℚ
  fee : ℚ
  netAmount : ℚ
  paymentMethod : String
  bankName : Option String := none
  accountName : Option String := none
  accountNumber : Option String := none
  walletAddress : Option String := none
  status : WStatus
  approvedBy : Option Nat := none
deriving DecidableEq, Repr

/-- An investment plan (`src/unnamed/part_001` schema): immutable reference
data plus the aggregate counters bumped by `createAdvancedInvestment`. -/
structure Plan where
  id : Nat
  minAmount : ℚ
  maxAmount : ℚ
  dailyInterest : ℚ
  totalInterest : ℚ
  duration : Nat
  riskLevel : String := "medium"
  isActive : Bool := true
  investmentCount : Nat := 0
  totalInvested : ℚ := 0
deriving DecidableEq, Repr

/-- An investment (`models/Investment`). -/
structure Investment where
  id : Nat
  user : Nat
  plan : Nat
  amount : ℚ
  dailyEarnings : ℚ
  totalReturns : ℚ
  duration : Nat
  startDate : Option Nat := none
  endDate : Option Nat := none
  autoRenew : Bool := false
  status : IStatus
deriving DecidableEq, Repr

/-- The persisted state: the logical collections, plus a counter supplying
fresh document ids (`_id` values newly created by Mongo). -/
structure St where
  users : List User
  deposits : List Deposit
  withdrawals : List Withdrawal
  investments : List Investment
  plans : List Plan
  txns : List Txn
  nextId : Nat
deriving DecidableEq, Repr

/-- `User.findById`. -/
def findUser (st : St) (uid : Nat) : Option User :=
  st.users.find? (fun u => u.id == uid)

/-- `Deposit.findById`. -/
def findDeposit (st : St) (did : Nat) : Option Deposit :=
  st.deposits.find? (fun d => d.id == did)

/-- `Withdrawal.findById`. -/
def findWithdrawal (st : St) (wid : Nat) : Option Withdrawal :=
  st.withdrawals.find? (fun w => w.id == wid)

/-- `Investment.findById`. -/
def findInv (st : St) (iid : Nat) : Option Investment :=
  st.investments.find? (fun i => i.id == iid)

/-- `InvestmentPlan.findById`. -/
def findPlan (st : St) (pid : Nat) : Option Plan :=
  st.plans.find? (fun p => p.id == pid)

/-- Keyed in-place update of the first list element satisfying `p`
(`findOneAndUpdate`: Mongo updates the first match in natural order). -/
def updateFirst (p : α → Bool) (f : α → α) : List α → List α
  | [] => []
  | a :: as => if p a then f a :: as else a :: updateFirst p f as

/-- `user.save()` / `User.findByIdAndUpdate`: rewrite the user with the given
id (a no-op when the id is absent, as `findByIdAndUpdate` is on a missing id). -/
def updateUser (st : St) (uid : Nat) (f : User → User) : St :=
  { st with users := st.users.map (fun u => if u.id == uid then f u else u) }

/-- Update the investment with the given id in place. -/
def updateInv (st : St) (iid : Nat) (f : Investment → Investment) : St :=
  { st with investments := st.investments.map (fun i => if i.id == iid then f i else i) }

/-- Spendable balance of a user (0 when the id is absent). -/
def balanceOf (st : St) (uid : Nat) : ℚ :=
  ((findUser st uid).map User.balance).getD 0

/-- One day in `Date.now()` milliseconds (`24 * 60 * 60 * 1000`). -/
def dayMs : Nat := 86400000

/-- Modelled from the spec: the repository requires
`utils/investmentCalculations.js`, which is not among the source files; §4.5
of the spec defines the pure Returns Calculator it exports as
`dailyEarnings(amount, dailyRatePercent) = amount × dailyRatePercent / 100`. -/
def calculateDailyEarnings (amount rate : ℚ) : ℚ := amount * rate / 100

/-- Modelled from the spec: second export of the missing
`utils/investmentCalculations.js`, per §4.5
`totalReturns(amount, totalRatePercent) = amount × totalRatePercent / 100`. -/
def calculateTotalReturns (amount rate : ℚ) : ℚ := amount * rate / 100

/-- Result record of `investmentPlanSchema.methods.calculateReturns`
(`src/unnamed/part_001`). -/
structure Returns where
  principal : ℚ
  dailyReturn : ℚ
  totalReturn : ℚ
  netProfit : ℚ
  roiPercentage : ℚ
  duration : Nat
  dailyBreakdown : List (Nat × ℚ × ℚ)
deriving DecidableEq, Repr

/-- `investmentPlanSchema.methods.calculateReturns` (`src/unnamed/part_001`):
throws when the amount is outside `[min_amount, max_amount]`, otherwise
returns the computed returns. -/
def Plan.calculateReturns (p : Plan) (amount : ℚ) : Except Err Returns :=
  if amount < p.minAmount ∨ amount > p.maxAmount then .error .invalidAmount
  else
    let dailyReturn := amount * p.dailyInterest / 100
    let totalReturn := amount * p.totalInterest / 100
    .ok { principal := amount
          dailyReturn := dailyReturn
          totalReturn := totalReturn
          netProfit := totalReturn - amount
          roiPercentage := p.totalInterest
          duration := p.duration
          dailyBreakdown :=
            (List.range p.duration).map (fun i => (i + 1, dailyReturn, dailyReturn * ((i : ℚ) + 1))) }

/-- `validTransitions` of `updateInvestmentStatus`
(`src/controllers/investment.js:388-394`) as a pure predicate. -/
def validTransition : IStatus → IStatus → Bool
  | .pending, .active => true
  | .pending, .rejected => true
  | .active, .completed => true
  | .active, .cancelled => true
  | _, _ => false

/-- `createDeposit` (`src/controllers/depositController.js`): below the
₦3,500 minimum is rejected; otherwise a pending Deposit plus a pending
ledger entry of `+amount` are appended.  The user's balance is not touched. -/
def createDeposit (st : St) (uid : Nat) (amount : ℚ) (method : String) : Except Err St :=
  if amount < 3500 then .error .invalidAmount
  else
    let dep : Deposit :=
      { id := st.nextId, user := uid, amount := amount, paymentMethod := method, status := .pending }
    let t : Txn :=
      { id := st.nextId + 1, user := uid, type := .deposit, amount := amount, status := .pending
        meta := { depositId := some dep.id } }
    .ok { st with deposits := st.deposits ++ [dep], txns := st.txns ++ [t], nextId := st.nextId + 2 }

/-- `approveDeposit` (`src/controllers/admin controller.js:211-318`):
requires the deposit pending, flips it to approved, credits the user's
balance with `+amount`, settles the original pending entry to completed via
`findOneAndUpdate`, and then additionally `Transaction.create`s a second,
already-completed entry of `+amount` for the same deposit.
A dangling `user` reference would crash the populated handler (500, session
aborted), modelled as requiring the user to resolve. -/
def approveDeposit (st : St) (did admin : Nat) : Except Err St :=
  match findDeposit st did with
  | none => .error .notFound
  | some dep =>
    if dep.status ≠ .pending then .error .alreadyProcessed
    else match findUser st dep.user with
    | none => .error .notFound
    | some _ =>
      let deps := st.deposits.map
        (fun d => if d.id == did then { d with status := .approved, approvedBy := some admin } else d)
      let st1 : St := { st with deposits := deps }
      let st2 := updateUser st1 dep.user (fun u => { u with balance := u.balance + dep.amount })
      let txs := updateFirst (fun t => t.meta.depositId == some did)
        (fun t => { t with status := .completed }) st2.txns
      let st3 : St := { st2 with txns := txs }
      let dup : Txn :=
        { id := st.nextId, user := dep.user, type := .deposit, amount := dep.amount, status := .completed
          meta := { depositId := some did, approvedBy := some admin } }
      .ok { st3 with txns := st3.txns ++ [dup], nextId := st.nextId + 1 }

/-- `createWithdrawal` (`src/controllers/withdrawalcontroller.js:9-99`):
rejects below ₦3,500, computes `fee = amount * 0.05` and
`net_amount = amount - fee`, rejects when `user.balance < amount`, then
appends a pending Withdrawal and a pending ledger entry of `-amount`.
The handler never mutates `user.balance`. -/
def createWithdrawal (st : St) (uid : Nat) (amount : ℚ) (method : String)
    (bankName accountName accountNumber walletAddress : Option String) : Except Err St :=
  if amount < 3500 then .error .invalidAmount
  else
    let fee := amount * 5 / 100
    let net := amount - fee
    match findUser st uid with
    | none => .error .notFound
    | some u =>
      if u.balance < amount then .error .insufficientFunds
      else
        let w : Withdrawal :=
          { id := st.nextId, user := uid, amount := amount, fee := fee, netAmount := net
            paymentMethod := method
            bankName := if method == "bank_transfer" then bankName else none
            accountName := if method == "bank_transfer" then accountName else none
            accountNumber := if method == "bank_transfer" then accountNumber else none
            walletAddress := if method == "crypto" then walletAddress else none
            status := .pending }
        let t : Txn :=
          { id := st.nextId + 1, user := uid, type := .withdrawal, amount := -amount, status := .pending
            meta := { withdrawalId := some w.id, fee := some fee, netAmount := some net } }
        .ok { st with withdrawals := st.withdrawals ++ [w], txns := st.txns ++ [t], nextId := st.nextId + 2 }

/-- `approveWithdrawal` (`src/controllers/admin controller.js:427-521`):
requires pending, flips the withdrawal to approved and settles its ledger
entry to completed; no balance field is touched. -/
def approveWithdrawal (st : St) (wid admin : Nat) : Except Err St :=
  match findWithdrawal st wid with
  | none => .error .notFound
  | some w =>
    if w.status ≠ .pending then .error .alreadyProcessed
    else
      let ws := st.withdrawals.map
        (fun x => if x.id == wid then { x with status := .approved, approvedBy := some admin } else x)
      let st1 : St := { st with withdrawals := ws }
      let txs := updateFirst (fun t => t.meta.withdrawalId == some wid)
        (fun t => { t with status := .completed }) st1.txns
      .ok { st1 with txns := txs }

/-- `rejectWithdrawal` (`src/controllers/admin controller.js:528-604`):
requires pending, flips the withdrawal to rejected, adds the gross `amount`
back onto the user's balance, and settles the ledger entry to failed. -/
def rejectWithdrawal (st : St) (wid : Nat) : Except Err St :=
  match findWithdrawal st wid with
  | none => .error .notFound
  | some w =>
    if w.status ≠ .pending then .error .alreadyProcessed
    else match findUser st w.user with
    | none => .error .notFound
    | some _ =>
      let ws := st.withdrawals.map
        (fun x => if x.id == wid then { x with status := .rejected } else x)
      let st1 : St := { st with withdrawals := ws }
      let st2 := updateUser st1 w.user (fun u => { u with balance := u.balance + w.amount })
      let txs := updateFirst (fun t => t.meta.withdrawalId == some wid)
        (fun t => { t with status := .failed }) st2.txns
      .ok { st2 with txns := txs }

/-- `createInvestment` (`src/controllers/investment.js:13-139`): after the
falsy-input guard (`!plan_id || !amount`, which an amount of 0 trips), the
plan must exist and be active and the amount must reach `plan.min_amount`
— there is no `max_amount` check in this handler — and the user must have
`balance ≥ amount`.  It then appends a pending Investment (daily/total
returns via the Returns Calculator, `end_date = now + duration` days),
deducts `amount` from the balance, and appends a ledger entry of `-amount`
created directly with status `completed`. -/
def createInvestment (st : St) (uid planId : Nat) (amount : ℚ) (autoRenew : Bool)
    (now : Nat) : Except Err St :=
  if amount = 0 then .error .missingInput
  else match findPlan st planId with
  | none => .error .notFound
  | some plan =>
    if !plan.isActive then .error .notFound
    else if amount < plan.minAmount then .error .invalidAmount
    else match findUser st uid with
    | none => .error .notFound
    | some u =>
      if u.balance < amount then .error .insufficientFunds
      else
        let inv : Investment :=
          { id := st.nextId, user := uid, plan := planId, amount := amount
            dailyEarnings := calculateDailyEarnings amount plan.dailyInterest
            totalReturns := calculateTotalReturns amount plan.totalInterest
            duration := plan.duration
            endDate := some (now + plan.duration * dayMs)
            autoRenew := autoRenew, status := .pending }
        let st1 : St := { st with investments := st.investments ++ [inv] }
        let st2 := updateUser st1 uid (fun v => { v with balance := v.balance - amount })
        let t : Txn :=
          { id := st.nextId + 1, user := uid, type := .investment, amount := -amount
            status := .completed, meta := { investmentId := some inv.id } }
        .ok { st2 with txns := st2.txns ++ [t], nextId := st.nextId + 2 }

/-- `createAdvancedInvestment`
(`src/controllers/InvestmentController.js:266-429`): checks the plan active,
`min_amount ≤ amount ≤ max_amount`, `balance ≥ amount`, and the risk gate
(`plan.risk_level === 'high' && user.risk_tolerance === 'low'`); then appends
an Investment that is immediately `active` (only `end_date` is set), deducts
the balance, bumps `user.total_invested`, appends a completed ledger entry of
`-amount`, and bumps the plan's aggregate counters.  The presentational
`strategy` / `risk_management` / `target_amount` / `stop_loss` inputs are
stored on the document unprocessed and are omitted here. -/
def createAdvancedInvestment (st : St) (uid planId : Nat) (amount : ℚ)
    (autoRenew : Bool) (now : Nat) : Except Err St :=
  match findPlan st planId with
  | none => .error .notFound
  | some plan =>
    if !plan.isActive then .error .notFound
    else if amount < plan.minAmount ∨ amount > plan.maxAmount then .error .invalidAmount
    else match findUser st uid with
    | none => .error .notFound
    | some u =>
      if u.balance < amount then .error .insufficientFunds
      else if plan.riskLevel == "high" && u.riskTolerance == "low" then .error .riskTooHigh
      else
        let inv : Investment :=
          { id := st.nextId, user := uid, plan := planId, amount := amount
            dailyEarnings := amount * plan.dailyInterest / 100
            totalReturns := amount * plan.totalInterest / 100
            duration := plan.duration
            endDate := some (now + plan.duration * dayMs)
            autoRenew := autoRenew, status := .active }
        let st1 : St := { st with investments := st.investments ++ [inv] }
        let st2 := updateUser st1 uid
          (fun v => { v with balance := v.balance - amount, totalInvested := v.totalInvested + amount })
        let t : Txn :=
          { id := st.nextId + 1, user := uid, type := .investment, amount := -amount
            status := .completed, meta := { investmentId := some inv.id } }
        let ps := st2.plans.map (fun p => if p.id == planId
          then { p with investmentCount := p.investmentCount + 1, totalInvested := p.totalInvested + amount }
          else p)
        .ok { st2 with plans := ps, txns := st2.txns ++ [t], nextId := st.nextId + 2 }

/-- `approveInvestment` (`src/controllers/admin controller.js:652-790`):
requires pending, activates the investment
(`start_date = now`, `end_date = now + duration` days), settles its ledger
entry to completed, and commits.  After the commit, when the investor has a
`referred_by`, the referral block runs inside its own `try`: it credits the
referrer (`$inc` of balance and `referral_earnings` by 20% of the amount) and
appends a completed `referral_bonus` ledger entry whose metadata carries
`referral_user_id`, `investment_amount` and `bonus_percentage` (no
investment id, and no prior-ledger lookup).  `referralOk := false` models any
error thrown inside that `try`: it is caught and logged, the referral
effects are skipped, and the handler still responds with success.
Dangling `user` / `plan` references would crash the populated handler
before any write, modelled as requiring both to resolve. -/
def approveInvestment (st : St) (iid : Nat) (now : Nat) (referralOk : Bool) :
    Except Err St :=
  match findInv st iid with
  | none => .error .notFound
  | some inv =>
    if inv.status ≠ .pending then .error .alreadyProcessed
    else match findPlan st inv.plan, findUser st inv.user with
    | some plan, some u =>
      let st1 := updateInv st iid (fun i =>
        { i with status := .active, startDate := some now
                 endDate := some (now + plan.duration * dayMs) })
      let txs := updateFirst (fun t => t.meta.investmentId == some iid)
        (fun t => { t with status := .completed }) st1.txns
      let st2 : St := { st1 with txns := txs }
      match u.referredBy, referralOk with
      | some rid, true =>
        let bonus := inv.amount * 20 / 100
        let st3 := updateUser st2 rid (fun r =>
          { r with balance := r.balance + bonus
                   referralEarnings := r.referralEarnings + bonus })
        let bt : Txn :=
          { id := st.nextId, user := rid, type := .referralBonus, amount := bonus
            status := .completed
            meta := { referralUserId := some inv.user, investmentAmount := some inv.amount
                      bonusPercentage := some 20 } }
        .ok { st3 with txns := st3.txns ++ [bt], nextId := st.nextId + 1 }
      | _, _ => .ok st2
    | _, _ => .error .notFound

/-- `rejectInvestment` (`src/controllers/admin controller.js:797-874`):
requires pending (else the "Investment already processed" response), flips
the investment to rejected, refunds `amount` onto the user's balance, and
settles the ledger entry to failed. -/
def rejectInvestment (st : St) (iid : Nat) : Except Err St :=
  match findInv st iid with
  | none => .error .notFound
  | some inv =>
    if inv.status ≠ .pending then .error .alreadyProcessed
    else match findUser st inv.user with
    | none => .error .notFound
    | some _ =>
      let st1 := updateInv st iid (fun i => { i with status := .rejected })
      let st2 := updateUser st1 inv.user (fun v => { v with balance := v.balance + inv.amount })
      let txs := updateFirst (fun t => t.meta.investmentId == some iid)
        (fun t => { t with status := .failed }) st2.txns
      .ok { st2 with txns := txs }

/-- `updateInvestmentStatus` (`src/controllers/investment.js:367-506`): the
admin status endpoint.  A transition outside `validTransitions` is rejected
with the "Invalid status transition from … to …" response and no write.
`active` sets fresh start/end dates.  `completed` with `auto_renew` false
credits the gross `total_returns` to the balance and appends a completed
`investment_earnings` entry of `+total_returns` whose metadata stores the
principal and the net `earnings = total_returns - amount`; with `auto_renew`
true it instead appends a fresh `active` Investment with the same
user/plan/amount and fresh dates and credits nothing.  `rejected`/`cancelled`
refund `amount` and settle the original entry to failed.  Dangling
`user` / `plan` references would crash the populated handler (session
aborted), modelled as requiring both to resolve. -/
def updateInvestmentStatus (st : St) (iid : Nat) (newStatus : IStatus) (now : Nat) :
    Except Err St :=
  match findInv st iid with
  | none => .error .notFound
  | some inv =>
    match findPlan st inv.plan, findUser st inv.user with
    | some plan, some _ =>
      if !(validTransition inv.status newStatus) then
        .error (.invalidTransition inv.status newStatus)
      else match newStatus with
      | .active =>
        .ok (updateInv st iid (fun i =>
          { i with status := .active, startDate := some now
                   endDate := some (now + plan.duration * dayMs) }))
      | .completed =>
        let st1 := updateInv st iid (fun i => { i with status := .completed })
        if !inv.autoRenew then
          let st2 := updateUser st1 inv.user (fun v => { v with balance := v.balance + inv.totalReturns })
          let t : Txn :=
            { id := st.nextId, user := inv.user, type := .investmentEarnings
              amount := inv.totalReturns, status := .completed
              meta := { investmentId := some iid, principal := some inv.amount
                        earnings := some (inv.totalReturns - inv.amount) } }
          .ok { st2 with txns := st2.txns ++ [t], nextId := st.nextId + 1 }
        else
          let ninv : Investment :=
            { id := st.nextId, user := inv.user, plan := inv.plan, amount := inv.amount
              dailyEarnings := inv.dailyEarnings, totalReturns := inv.totalReturns
              duration := plan.duration, autoRenew := true, status := .active
              startDate := some now, endDate := some (now + plan.duration * dayMs) }
          .ok { st1 with investments := st1.investments ++ [ninv], nextId := st.nextId + 1 }
      | .rejected | .cancelled =>
        let st1 := updateInv st iid (fun i => { i with status := newStatus })
        let st2 := updateUser st1 inv.user (fun v => { v with balance := v.balance + inv.amount })
        let txs := updateFirst (fun t => t.meta.investmentId == some iid)
          (fun t => { t with status := .failed }) st2.txns
        .ok { st2 with txns := txs }
      | .pending =>
        -- unreachable: `validTransition _ .pending` is `false` for every source state
        .error (.invalidTransition inv.status newStatus)
    | _, _ => .error .notFound

/-! ## Helper lemmas about keyed list updates -/

theorem length_updateFirst (p : α → Bool) (f : α → α) :
    ∀ l : List α, (updateFirst p f l).length = l.length := by
  intro l
  induction l with
  | nil => rfl
  | cons a as ih =>
    simp only [updateFirst]
    split <;> simp [ih]

theorem find?_update_user (l : List User) (uid : Nat) (f : User → User)
    (hf : ∀ u, (f u).id = u.id) :
    (l.map (fun u => if u.id == uid then f u else u)).find? (fun u => u.id == uid)
      = (l.find? (fun u => u.id == uid)).map f := by
  induction l with
  | nil => rfl
  | cons a as ih =>
    simp only [List.map_cons]
    by_cases h : a.id = uid
    · rw [if_pos (by simp [h]), List.find?_cons_of_pos _ (by simp [hf, h]),
        List.find?_cons_of_pos _ (by simp [h])]
      simp
    · rw [if_neg (by simp [h]), List.find?_cons_of_neg _ (by simp [h]),
        List.find?_cons_of_neg _ (by simp [h])]
      exact ih

theorem find?_update_inv (l : List Investment) (iid : Nat) (f : Investment → Investment)
    (hf : ∀ i, (f i).id = i.id) :
    (l.map (fun i => if i.id == iid then f i else i)).find? (fun i => i.id == iid)
      = (l.find? (fun i => i.id == iid)).map f := by
  induction l with
  | nil => rfl
  | cons a as ih =>
    simp only [List.map_cons]
    by_cases h : a.id = iid
    · rw [if_pos (by simp [h]), List.find?_cons_of_pos _ (by simp [hf, h]),
        List.find?_cons_of_pos _ (by simp [h])]
      simp
    · rw [if_neg (by simp [h]), List.find?_cons_of_neg _ (by simp [h]),
        List.find?_cons_of_neg _ (by simp [h])]
      exact ih

theorem findUser_updateUser (st : St) (uid : Nat) (f : User → User)
    (hf : ∀ u, (f u).id = u.id) :
    findUser (updateUser st uid f) uid = (findUser st uid).map f := by
  simpa [findUser, updateUser] using find?_update_user st.users uid f hf

theorem findInv_updateInv (st : St) (iid : Nat) (f : Investment → Investment)
    (hf : ∀ i, (f i).id = i.id) :
    findInv (updateInv st iid f) iid = (findInv st iid).map f := by
  simpa [findInv, updateInv] using find?_update_inv st.investments iid f hf

/-! ## Concrete fixture data for witnesses and counterexamples -/

/-- Fixture: an investor with ₦100,000 who was referred by user 20. -/
def alice : User := { id := 10, balance := 100000, referredBy := some 20 }

/-- Fixture: the referrer, starting with a zero balance. -/
def bob : User := { id := 20, balance := 0 }

/-- Fixture plan matching the spec scenario: 2% daily, 120% total, 10 days,
amounts in [3,500, 25,000]. -/
def planA : Plan :=
  { id := 1, minAmount := 3500, maxAmount := 25000, dailyInterest := 2
    totalInterest := 120, duration := 10 }

/-- Fixture base state: both users, the plan, empty collections. -/
def st0 : St :=
  { users := [alice, bob], deposits := [], withdrawals := [], investments := []
    plans := [planA], txns := [], nextId := 100 }

/-- Fixture: a pending ₦10,000 investment by user 10 in `planA`. -/
def invPend : Investment :=
  { id := 1, user := 10, plan := 1, amount := 10000, dailyEarnings := 200
    totalReturns := 12000, duration := 10, status := .pending }

/-- Fixture: an already-active investment (no auto-renew). -/
def invActive : Investment :=
  { id := 2, user := 10, plan := 1, amount := 10000, dailyEarnings := 200
    totalReturns := 12000, duration := 10, startDate := some 0
    endDate := some (10 * dayMs), status := .active }

/-- Fixture: an active auto-renew investment. -/
def invRenew : Investment :=
  { id := 3, user := 10, plan := 1, amount := 10000, dailyEarnings := 200
    totalReturns := 12000, duration := 10, startDate := some 0
    endDate := some (10 * dayMs), autoRenew := true, status := .active }

/-- Fixture state containing the three investments. -/
def stInv : St := { st0 with investments := [invPend, invActive, invRenew] }

/-- Fixture: a completed `referral_bonus` ledger entry already keyed (per the
spec's idempotency key) to investment 1. -/
def preBonus : Txn :=
  { id := 50, user := 20, type := .referralBonus, amount := 2000
    status := .completed, meta := { investmentId := some 1 } }

/-- Fixture state in which the referral bonus for investment 1 is already on
the ledger. -/
def stC2 : St := { stInv with txns := [preBonus] }

/-- Run an operation, keeping the pre-state when it errors (the session was
aborted, so an error leaves the store untouched). -/
def runOr (st : St) (r : Except Err St) : St :=
  match r with
  | .ok s => s
  | .error _ => st

/-! ## Claim C1 -/

/-- State after user 10 (balance ₦100,000) files a ₦50,000 withdrawal. -/
def stW1 : St := runOr st0 (createWithdrawal st0 10 50000 "bank_transfer" none none none none)

/-- State after the admin then rejects that withdrawal (id 100). -/
def stW2 : St := runOr stW1 (rejectWithdrawal stW1 100)

/-- C1: the claim (gross amount deducted at creation, refunded on rejection,
create→reject restores the exact pre-create balance) is what the code's own
comment in `rejectWithdrawal` asserts, but `createWithdrawal` never deducts:
on balance 100,000 a 50,000 withdrawal leaves the balance at 100,000 (the
claim says 50,000), and the rejection's refund then raises it to 150,000 —
not the pre-create 100,000 — minting ₦50,000. -/
theorem C1_code_bug_eval :
    (createWithdrawal st0 10 50000 "bank_transfer" none none none none).isOk = true ∧
    balanceOf st0 10 = 100000 ∧
    balanceOf stW1 10 = 100000 ∧
    (rejectWithdrawal stW1 100).isOk = true ∧
    balanceOf stW2 10 = 150000 := by
  refine ⟨rfl, rfl, rfl, rfl, ?_⟩
  show (100000 : ℚ) + 50000 = 150000
  norm_num

/-! ## Claim C2 -/

/-- The in-place update `approveInvestment` (and the `active` branch of
`updateInvestmentStatus`) applies to the investment being activated:
status `active`, `start_date = now`, `end_date = now + duration` days. -/
def activateInv (now dur : Nat) (i : Investment) : Investment :=
  { i with status := .active, startDate := some now, endDate := some (now + dur * dayMs) }

/-- C2 counterexample: with the referral bonus for investment 1 already on
the ledger (a completed `referral_bonus` entry carrying that investment id),
approving pending investment 1 is not a no-op: it credits referrer 20 with
another ₦2,000 (20% of 10,000) and appends a second `referral_bonus` entry —
no ledger-entry idempotency check exists in `approveInvestment`. -/
theorem C2_counterexample :
    (stC2.txns.filter
      (fun t => t.type == .referralBonus && t.meta.investmentId == some 1)).length = 1 ∧
    (approveInvestment stC2 1 0 true).isOk = true ∧
    (runOr stC2 (approveInvestment stC2 1 0 true)).txns.length = stC2.txns.length + 1 ∧
    balanceOf stC2 20 = 0 ∧
    balanceOf (runOr stC2 (approveInvestment stC2 1 0 true)) 20 = 2000 := by
  refine ⟨rfl, rfl, rfl, rfl, ?_⟩
  show (0 : ℚ) + 10000 * 20 / 100 = 2000
  norm_num

/-- C2 amended: the bonus is still applied at most once per investment under
repeated invocation of `approveInvestment`, but through the
`status !== 'pending'` guard rather than the claimed ledger lookup: a first
successful approval leaves the investment `active`, so a second approval of
the same id fails with the "Investment already processed" response before
the referral block can run. -/
theorem C2_amended (st st2 : St) (iid now now2 : Nat) (rok rok2 : Bool)
    (inv : Investment) (plan : Plan) (u : User)
    (hfi : findInv st iid = some inv)
    (hp : findPlan st inv.plan = some plan)
    (hu : findUser st inv.user = some u)
    (h1 : approveInvestment st iid now rok = .ok st2) :
    approveInvestment st2 iid now2 rok2 = .error .alreadyProcessed := by
  simp only [approveInvestment, hfi, hp, hu] at h1
  by_cases hs : inv.status = .pending
  · rw [if_neg (by simp [hs])] at h1
    have key : st2.investments = st.investments.map
        (fun i => if i.id == iid then activateInv now plan.duration i else i) := by
      split at h1 <;>
      · rw [Except.ok.injEq] at h1
        rw [← h1]
        simp [updateInv, updateUser, activateInv]
    have hinv2 : findInv st2 iid = some (activateInv now plan.duration inv) := by
      unfold findInv
      rw [key, find?_update_inv st.investments iid (activateInv now plan.duration) (fun i => rfl)]
      unfold findInv at hfi
      rw [hfi]
      rfl
    simp [approveInvestment, hinv2, activateInv]
  · rw [if_pos (by simp [hs])] at h1
    simp at h1

/-- C2 witness: on the concrete fixture, investment 1 is pending, the first
approval succeeds, and the repeated approval fails with AlreadyProcessed. -/
theorem C2_witness :
    findInv stInv 1 = some invPend ∧ invPend.status = .pending ∧
    approveInvestment (runOr stInv (approveInvestment stInv 1 0 true)) 1 5 false
      = .error .alreadyProcessed :=
  ⟨rfl, rfl,
    C2_amended stInv (runOr stInv (approveInvestment stInv 1 0 true)) 1 0 5 true false
      invPend planA alice rfl rfl rfl rfl⟩

/-! ## Claim C3 -/

/-- State after user 10 files a ₦5,000 deposit. -/
def stD1 : St := runOr st0 (createDeposit st0 10 5000 "card")

/-- State after admin 99 then approves that deposit (id 100). -/
def stD2 : St := runOr stD1 (approveDeposit stD1 100 99)

/-- C3 counterexample: approving a ₦5,000 deposit mutates the balance once
(+5,000) yet leaves TWO completed `deposit` ledger entries of +5,000 for that
deposit — `approveDeposit` settles the pending entry created by
`createDeposit` and also `Transaction.create`s a duplicate — refuting
"exactly one corresponding ledger entry … never two entries". -/
theorem C3_counterexample :
    (createDeposit st0 10 5000 "card").isOk = true ∧
    (approveDeposit stD1 100 99).isOk = true ∧
    balanceOf st0 10 = 100000 ∧
    balanceOf stD2 10 = 105000 ∧
    (stD2.txns.filter
      (fun t => t.type == .deposit && t.status == .completed && t.meta.depositId == some 100)).length
      = 2 ∧
    (stD2.txns.filter
      (fun t => t.type == .deposit && t.status == .completed && t.meta.depositId == some 100)).map
        Txn.amount = [5000, 5000] := by
  refine ⟨rfl, rfl, rfl, ?_, rfl, rfl⟩
  show (100000 : ℚ) + 5000 = 105000
  norm_num

/-- C3 amended: each balance mutation's actual ledger effect is —
investment creation appends exactly one `-amount` entry; non-auto-renew
completion appends exactly one `+total_returns` entry; deposit approval
credits `+amount` once while settling the original pending entry to
completed AND appending a second completed `+amount` entry (two completed
entries for one mutation); withdrawal and investment rejection refunds
(`+amount`) append no entry at all, only settling the original
opposite-signed entry to failed; the referral bonus appends
exactly one `+bonus` entry; and withdrawal creation mutates no balance while
appending its single pending `-amount` entry. -/
theorem C3_amended :
    (∀ (st : St) (uid planId : Nat) (amount : ℚ) (ar : Bool) (now : Nat) (plan : Plan) (u : User),
      findPlan st planId = some plan → plan.isActive = true → ¬ amount = 0 →
      ¬ amount < plan.minAmount → findUser st uid = some u → ¬ u.balance < amount →
      ∃ st2, createInvestment st uid planId amount ar now = .ok st2 ∧
        st2.txns = st.txns ++
          [⟨st.nextId + 1, uid, .investment, -amount, .completed, { investmentId := some st.nextId }⟩] ∧
        balanceOf st2 uid = balanceOf st uid - amount) ∧
    (∀ (st : St) (iid now : Nat) (inv : Investment) (plan : Plan) (u : User),
      findInv st iid = some inv → findPlan st inv.plan = some plan →
      findUser st inv.user = some u → inv.status = .active → inv.autoRenew = false →
      ∃ st2, updateInvestmentStatus st iid .completed now = .ok st2 ∧
        st2.txns = st.txns ++
          [⟨st.nextId, inv.user, .investmentEarnings, inv.totalReturns, .completed,
            { investmentId := some iid, principal := some inv.amount, earnings := some (inv.totalReturns - inv.amount) }⟩] ∧
        balanceOf st2 inv.user = balanceOf st inv.user + inv.totalReturns) ∧
    (∀ (st : St) (did admin : Nat) (dep : Deposit) (u : User),
      findDeposit st did = some dep → dep.status = .pending → findUser st dep.user = some u →
      ∃ st2, approveDeposit st did admin = .ok st2 ∧
        st2.txns = updateFirst (fun t => t.meta.depositId == some did)
            (fun t => { t with status := .completed }) st.txns ++
          [⟨st.nextId, dep.user, .deposit, dep.amount, .completed,
            { depositId := some did, approvedBy := some admin }⟩] ∧
        st2.txns.length = st.txns.length + 1 ∧
        balanceOf st2 dep.user = balanceOf st dep.user + dep.amount) ∧
    (∀ (st : St) (wid : Nat) (w : Withdrawal) (u : User),
      findWithdrawal st wid = some w → w.status = .pending → findUser st w.user = some u →
      ∃ st2, rejectWithdrawal st wid = .ok st2 ∧
        st2.txns = updateFirst (fun t => t.meta.withdrawalId == some wid)
            (fun t => { t with status := .failed }) st.txns ∧
        st2.txns.length = st.txns.length ∧
        balanceOf st2 w.user = balanceOf st w.user + w.amount) ∧
    (∀ (st : St) (uid : Nat) (amount : ℚ) (method : String) (bn an acc wa : Option String) (u : User),
      ¬ amount < 3500 → findUser st uid = some u → ¬ u.balance < amount →
      ∃ st2, createWithdrawal st uid amount method bn an acc wa = .ok st2 ∧
        st2.users = st.users ∧
        st2.txns = st.txns ++
          [⟨st.nextId + 1, uid, .withdrawal, -amount, .pending,
            { withdrawalId := some st.nextId, fee := some (amount * 5 / 100),
              netAmount := some (amount - amount * 5 / 100) }⟩]) ∧
    (∀ (st : St) (iid : Nat) (inv : Investment) (u : User),
      findInv st iid = some inv → inv.status = .pending → findUser st inv.user = some u →
      ∃ st2, rejectInvestment st iid = .ok st2 ∧
        st2.txns = updateFirst (fun t => t.meta.investmentId == some iid)
            (fun t => { t with status := .failed }) st.txns ∧
        st2.txns.length = st.txns.length ∧
        balanceOf st2 inv.user = balanceOf st inv.user + inv.amount) ∧
    (∀ (st : St) (iid now rid : Nat) (inv : Investment) (plan : Plan) (u r : User),
      findInv st iid = some inv → inv.status = .pending → findPlan st inv.plan = some plan →
      findUser st inv.user = some u → u.referredBy = some rid → findUser st rid = some r →
      ∃ st2, approveInvestment st iid now true = .ok st2 ∧
        st2.txns = updateFirst (fun t => t.meta.investmentId == some iid)
            (fun t => { t with status := .completed }) st.txns ++
          [⟨st.nextId, rid, .referralBonus, inv.amount * 20 / 100, .completed,
            { referralUserId := some inv.user, investmentAmount := some inv.amount,
              bonusPercentage := some 20 }⟩] ∧
        balanceOf st2 rid = balanceOf st rid + inv.amount * 20 / 100) := by
  refine ⟨?_, ?_, ?_, ?_, ?_, ?_, ?_⟩
  · intro st uid planId amount ar now plan u hp hact h0 hmin hu hb
    simp only [createInvestment, hp, hact, h0, hmin, hu, hb, Bool.not_true, if_false, ite_false,
      Bool.false_eq_true, not_false_eq_true]
    refine ⟨_, rfl, rfl, ?_⟩
    simp only [balanceOf, findUser, updateUser]
    rw [find?_update_user st.users uid (fun v => { v with balance := v.balance - amount }) (fun v => rfl)]
    unfold findUser at hu
    rw [hu]
    rfl
  · intro st iid now inv plan u hfi hp hu hs hr
    simp only [updateInvestmentStatus, hfi, hp, hu, hs, hr, validTransition, Bool.not_true,
      Bool.not_false, if_false, if_true, ite_false, ite_true]
    refine ⟨_, rfl, rfl, ?_⟩
    simp only [balanceOf, findUser, updateUser, updateInv]
    rw [find?_update_user st.users inv.user
      (fun v => { v with balance := v.balance + inv.totalReturns }) (fun v => rfl)]
    unfold findUser at hu
    rw [hu]
    rfl
  · intro st did admin dep u hfd hs hu
    simp only [approveDeposit, hfd, hs, hu, ne_eq, not_true_eq_false, if_false, ite_false,
      Bool.false_eq_true]
    refine ⟨_, rfl, rfl, ?_, ?_⟩
    · rw [List.length_append, length_updateFirst]
      rfl
    · simp only [balanceOf, findUser, updateUser]
      rw [find?_update_user st.users dep.user
        (fun v => { v with balance := v.balance + dep.amount }) (fun v => rfl)]
      unfold findUser at hu
      rw [hu]
      rfl
  · intro st wid w u hfw hs hu
    simp only [rejectWithdrawal, hfw, hs, hu, ne_eq, not_true_eq_false, if_false, ite_false,
      Bool.false_eq_true]
    refine ⟨_, rfl, rfl, ?_, ?_⟩
    · rw [length_updateFirst]
      rfl
    · simp only [balanceOf, findUser, updateUser]
      rw [find?_update_user st.users w.user
        (fun v => { v with balance := v.balance + w.amount }) (fun v => rfl)]
      unfold findUser at hu
      rw [hu]
      rfl
  · intro st uid amount method bn an acc wa u h35 hu hb
    simp only [createWithdrawal, h35, hu, hb, if_false, ite_false]
    exact ⟨_, rfl, rfl, rfl⟩
  · intro st iid inv u hfi hs hu
    simp only [rejectInvestment, hfi, hs, hu, ne_eq, not_true_eq_false, if_false, ite_false,
      Bool.false_eq_true]
    refine ⟨_, rfl, rfl, ?_, ?_⟩
    · rw [length_updateFirst]
      rfl
    · simp only [balanceOf, findUser, updateUser, updateInv]
      rw [find?_update_user st.users inv.user
        (fun v => { v with balance := v.balance + inv.amount }) (fun v => rfl)]
      unfold findUser at hu
      rw [hu]
      rfl
  · intro st iid now rid inv plan u r hfi hs hp hu hrb hr
    simp only [approveInvestment, hfi, hs, hp, hu, hrb, ne_eq, not_true_eq_false, if_false,
      ite_false, Bool.false_eq_true]
    refine ⟨_, rfl, rfl, ?_⟩
    simp only [balanceOf, findUser, updateUser, updateInv]
    rw [find?_update_user st.users rid
      (fun v =>
        { v with balance := v.balance + inv.amount * 20 / 100
                 referralEarnings := v.referralEarnings + inv.amount * 20 / 100 })
      (fun v => rfl)]
    unfold findUser at hr
    rw [hr]
    rfl

/-- C3 witness: the seven per-operation ledger characterisations instantiated
on the concrete fixtures (deposit 100 of ₦5,000, withdrawal 100 of ₦50,000,
investments 1 and 2 of ₦10,000, referrer 20). -/
theorem C3_witness :
    (∃ st2, createInvestment st0 10 1 5000 false 0 = .ok st2 ∧
      st2.txns = st0.txns ++
        [⟨st0.nextId + 1, 10, .investment, -5000, .completed, { investmentId := some st0.nextId }⟩] ∧
      balanceOf st2 10 = balanceOf st0 10 - 5000) ∧
    (∃ st2, updateInvestmentStatus stInv 2 .completed 5 = .ok st2 ∧
      st2.txns = stInv.txns ++
        [⟨stInv.nextId, invActive.user, .investmentEarnings, invActive.totalReturns, .completed,
          { investmentId := some 2, principal := some invActive.amount,
            earnings := some (invActive.totalReturns - invActive.amount) }⟩] ∧
      balanceOf st2 invActive.user = balanceOf stInv invActive.user + invActive.totalReturns) ∧
    (∃ st2, approveDeposit stD1 100 99 = .ok st2 ∧
      st2.txns = updateFirst (fun t => t.meta.depositId == some 100)
          (fun t => { t with status := .completed }) stD1.txns ++
        [⟨stD1.nextId, 10, .deposit, 5000, .completed,
          { depositId := some 100, approvedBy := some 99 }⟩] ∧
      st2.txns.length = stD1.txns.length + 1 ∧
      balanceOf st2 10 = balanceOf stD1 10 + 5000) ∧
    (∃ st2, rejectWithdrawal stW1 100 = .ok st2 ∧
      st2.txns = updateFirst (fun t => t.meta.withdrawalId == some 100)
          (fun t => { t with status := .failed }) stW1.txns ∧
      st2.txns.length = stW1.txns.length ∧
      balanceOf st2 10 = balanceOf stW1 10 + 50000) ∧
    (∃ st2, createWithdrawal st0 10 50000 "bank_transfer" none none none none = .ok st2 ∧
      st2.users = st0.users ∧
      st2.txns = st0.txns ++
        [⟨st0.nextId + 1, 10, .withdrawal, -50000, .pending,
          { withdrawalId := some st0.nextId, fee := some (50000 * 5 / 100),
            netAmount := some (50000 - 50000 * 5 / 100) }⟩]) ∧
    (∃ st2, rejectInvestment stInv 1 = .ok st2 ∧
      st2.txns = updateFirst (fun t => t.meta.investmentId == some 1)
          (fun t => { t with status := .failed }) stInv.txns ∧
      st2.txns.length = stInv.txns.length ∧
      balanceOf st2 10 = balanceOf stInv 10 + invPend.amount) ∧
    (∃ st2, approveInvestment stInv 1 7 true = .ok st2 ∧
      st2.txns = updateFirst (fun t => t.meta.investmentId == some 1)
          (fun t => { t with status := .completed }) stInv.txns ++
        [⟨stInv.nextId, 20, .referralBonus, invPend.amount * 20 / 100, .completed,
          { referralUserId := some 10, investmentAmount := some invPend.amount,
            bonusPercentage := some 20 }⟩] ∧
      balanceOf st2 20 = balanceOf stInv 20 + invPend.amount * 20 / 100) :=
  ⟨C3_amended.1 st0 10 1 5000 false 0 planA alice rfl rfl (by decide) (by decide) rfl (by decide),
   C3_amended.2.1 stInv 2 5 invActive planA alice rfl rfl rfl rfl rfl,
   C3_amended.2.2.1 stD1 100 99
     { id := 100, user := 10, amount := 5000, paymentMethod := "card", status := .pending }
     alice rfl rfl rfl,
   C3_amended.2.2.2.1 stW1 100
     { id := 100, user := 10, amount := 50000, fee := 50000 * 5 / 100
       netAmount := 50000 - 50000 * 5 / 100, paymentMethod := "bank_transfer", status := .pending }
     alice rfl rfl rfl,
   C3_amended.2.2.2.2.1 st0 10 50000 "bank_transfer" none none none none alice
     (by decide) rfl (by decide),
   C3_amended.2.2.2.2.2.1 stInv 1 invPend alice rfl rfl rfl,
   C3_amended.2.2.2.2.2.2 stInv 1 7 20 invPend planA alice bob rfl rfl rfl rfl rfl rfl⟩

/-! ## Claim C4 -/

/-- C4 counterexample: `createInvestment` has no `max_amount` check — an
investment of ₦30,000 against a plan capped at ₦25,000 is accepted (the user
has the balance), and a ledger entry IS created, refuting "rejects any
amount … above the plan's maxAmount … and no LedgerEntry is created". -/
theorem C4_counterexample :
    planA.maxAmount = 25000 ∧ ((25000 : ℚ) < 30000) ∧
    (createInvestment st0 10 1 30000 false 0).isOk = true ∧
    (runOr st0 (createInvestment st0 10 1 30000 false 0)).txns.length
      = st0.txns.length + 1 :=
  ⟨rfl, by decide, rfl, rfl⟩

/-- C4 amended: only the `min_amount` bound is enforced by `createInvestment`
(below-minimum is rejected with the InvalidAmount response before any write —
an error aborts the session, so no ledger entry and no state change);
amounts above `max_amount` pass `createInvestment` and append a ledger entry;
the separate `createAdvancedInvestment` handler enforces both bounds. -/
theorem C4_amended :
    (∀ (st : St) (uid planId : Nat) (amount : ℚ) (ar : Bool) (now : Nat) (plan : Plan),
      findPlan st planId = some plan → plan.isActive = true → ¬ amount = 0 →
      amount < plan.minAmount →
      createInvestment st uid planId amount ar now = .error .invalidAmount) ∧
    (∀ (st : St) (uid planId : Nat) (amount : ℚ) (ar : Bool) (now : Nat) (plan : Plan),
      findPlan st planId = some plan → plan.isActive = true →
      (amount < plan.minAmount ∨ amount > plan.maxAmount) →
      createAdvancedInvestment st uid planId amount ar now = .error .invalidAmount) ∧
    (∀ (st : St) (uid planId : Nat) (amount : ℚ) (ar : Bool) (now : Nat) (plan : Plan) (u : User),
      findPlan st planId = some plan → plan.isActive = true → ¬ amount = 0 →
      ¬ amount < plan.minAmount → amount > plan.maxAmount →
      findUser st uid = some u → ¬ u.balance < amount →
      ∃ st2, createInvestment st uid planId amount ar now = .ok st2 ∧
        st2.txns.length = st.txns.length + 1) := by
  refine ⟨?_, ?_, ?_⟩
  · intro st uid planId amount ar now plan hp hact h0 hmin
    simp [createInvestment, hp, hact, h0, hmin]
  · intro st uid planId amount ar now plan hp hact hout
    simp [createAdvancedInvestment, hp, hact, hout]
  · intro st uid planId amount ar now plan u hp hact h0 hmin hmax hu hb
    simp only [createInvestment, hp, hact, h0, hmin, hu, hb, Bool.not_true, if_false, ite_false,
      Bool.false_eq_true, not_false_eq_true]
    refine ⟨_, rfl, ?_⟩
    simp [updateUser]

/-- C4 witness: below-minimum (₦1,000) and above-maximum (₦30,000) through
both handlers on the fixture plan. -/
theorem C4_witness :
    createInvestment st0 10 1 1000 false 0 = .error .invalidAmount ∧
    createAdvancedInvestment st0 10 1 30000 false 0 = .error .invalidAmount ∧
    (∃ st2, createInvestment st0 10 1 30000 false 0 = .ok st2 ∧
      st2.txns.length = st0.txns.length + 1) :=
  ⟨C4_amended.1 st0 10 1 1000 false 0 planA rfl rfl (by decide) (by decide),
   C4_amended.2.1 st0 10 1 30000 false 0 planA rfl rfl (by decide),
   C4_amended.2.2 st0 10 1 30000 false 0 planA alice rfl rfl (by decide) (by decide)
     (by decide) rfl (by decide)⟩

/-! ## Claim C5 -/

/-- C5 counterexample: rejecting the already-active investment 2 through the
dedicated admin `rejectInvestment` endpoint fails with the
"Investment already processed" (AlreadyProcessed) response, not with an
InvalidTransition error as the claim states. -/
theorem C5_counterexample :
    rejectInvestment stInv 2 = .error .alreadyProcessed ∧
    Err.alreadyProcessed ≠ Err.invalidTransition .active .rejected :=
  ⟨rfl, fun h => Err.noConfusion h⟩

/-- C5 amended: an investment status only ever changes along
pending→active, pending→rejected, active→completed, active→cancelled, and a
disallowed request mutates no state (the session is aborted); but the error
depends on the path — `updateInvestmentStatus` answers InvalidTransition
(carrying both states), while the dedicated `rejectInvestment` endpoint on a
non-pending investment answers AlreadyProcessed. -/
theorem C5_amended :
    (∀ (st st2 : St) (iid : Nat) (s : IStatus) (now : Nat),
      updateInvestmentStatus st iid s now = .ok st2 →
      ∃ inv, findInv st iid = some inv ∧ validTransition inv.status s = true) ∧
    (∀ (st : St) (iid : Nat) (s : IStatus) (now : Nat) (inv : Investment) (plan : Plan) (u : User),
      findInv st iid = some inv → findPlan st inv.plan = some plan →
      findUser st inv.user = some u → validTransition inv.status s = false →
      updateInvestmentStatus st iid s now = .error (.invalidTransition inv.status s)) ∧
    (∀ (st : St) (iid : Nat) (inv : Investment),
      findInv st iid = some inv → inv.status ≠ .pending →
      rejectInvestment st iid = .error .alreadyProcessed) := by
  refine ⟨?_, ?_, ?_⟩
  · intro st st2 iid s now h
    cases hfi : findInv st iid with
    | none => simp [updateInvestmentStatus, hfi] at h
    | some inv =>
      refine ⟨inv, rfl, ?_⟩
      cases hp : findPlan st inv.plan with
      | none => simp [updateInvestmentStatus, hfi, hp] at h
      | some plan =>
        cases hu : findUser st inv.user with
        | none => simp [updateInvestmentStatus, hfi, hp, hu] at h
        | some u =>
          by_cases hv : validTransition inv.status s = true
          · exact hv
          · simp [updateInvestmentStatus, hfi, hp, hu, hv] at h
  · intro st iid s now inv plan u hfi hp hu hv
    simp [updateInvestmentStatus, hfi, hp, hu, hv]
  · intro st iid inv hfi hs
    simp only [rejectInvestment, hfi]
    rw [if_pos hs]

/-- C5 witness: a legal transition goes through (auto-renew investment 3,
active→completed), the illegal active→rejected request through
`updateInvestmentStatus` answers InvalidTransition, and `rejectInvestment`
on the active investment 2 answers AlreadyProcessed. -/
theorem C5_witness :
    (∃ inv, findInv stInv 3 = some inv ∧ validTransition inv.status .completed = true) ∧
    updateInvestmentStatus stInv 2 .rejected 0 = .error (.invalidTransition .active .rejected) ∧
    rejectInvestment stInv 2 = .error .alreadyProcessed :=
  ⟨C5_amended.1 stInv (runOr stInv (updateInvestmentStatus stInv 3 .completed 5)) 3 .completed 5 rfl,
   C5_amended.2.1 stInv 2 .rejected 0 invActive planA alice rfl rfl rfl (by decide),
   C5_amended.2.2 stInv 2 invActive rfl (by decide)⟩

/-! ## Claim C6 -/

/-- C6: deposit creation (≥ ₦3,500) succeeds without touching any user's
balance — the pending Deposit and pending entry are only appended; the
balance is credited by exactly `+amount` when and only when `approveDeposit`
runs on a pending deposit, and `approveDeposit` on a non-pending deposit
fails with the "Deposit already processed" (AlreadyProcessed) response. -/
theorem C6_confirmed :
    (∀ (st : St) (uid : Nat) (amount : ℚ) (method : String),
      ¬ amount < 3500 →
      ∃ st2, createDeposit st uid amount method = .ok st2 ∧
        st2.users = st.users ∧ ∀ v, balanceOf st2 v = balanceOf st v) ∧
    (∀ (st : St) (did admin : Nat) (dep : Deposit) (u : User),
      findDeposit st did = some dep → dep.status = .pending → findUser st dep.user = some u →
      ∃ st2, approveDeposit st did admin = .ok st2 ∧
        balanceOf st2 dep.user = balanceOf st dep.user + dep.amount) ∧
    (∀ (st : St) (did admin : Nat) (dep : Deposit),
      findDeposit st did = some dep → dep.status ≠ .pending →
      approveDeposit st did admin = .error .alreadyProcessed) := by
  refine ⟨?_, ?_, ?_⟩
  · intro st uid amount method h35
    simp only [createDeposit, h35, ite_false, if_false]
    exact ⟨_, rfl, rfl, fun v => rfl⟩
  · intro st did admin dep u hfd hs hu
    simp only [approveDeposit, hfd, hs, hu, ne_eq, not_true_eq_false, if_false, ite_false,
      Bool.false_eq_true]
    refine ⟨_, rfl, ?_⟩
    simp only [balanceOf, findUser, updateUser]
    rw [find?_update_user st.users dep.user
      (fun v => { v with balance := v.balance + dep.amount }) (fun v => rfl)]
    unfold findUser at hu
    rw [hu]
    rfl
  · intro st did admin dep hfd hs
    simp only [approveDeposit, hfd]
    rw [if_pos hs]

/-- C6 witness: creating deposit 100 (₦5,000) leaves every balance unchanged,
approving it credits exactly +5,000, and a second approval attempt on the
now-approved deposit fails with AlreadyProcessed. -/
theorem C6_witness :
    (∃ st2, createDeposit st0 10 5000 "card" = .ok st2 ∧
      st2.users = st0.users ∧ ∀ v, balanceOf st2 v = balanceOf st0 v) ∧
    (∃ st2, approveDeposit stD1 100 99 = .ok st2 ∧
      balanceOf st2 10 = balanceOf stD1 10 + 5000) ∧
    approveDeposit stD2 100 99 = .error .alreadyProcessed :=
  ⟨C6_confirmed.1 st0 10 5000 "card" (by decide),
   C6_confirmed.2.1 stD1 100 99
     { id := 100, user := 10, amount := 5000, paymentMethod := "card", status := .pending }
     alice rfl rfl rfl,
   C6_confirmed.2.2 stD2 100 99
     { id := 100, user := 10, amount := 5000, paymentMethod := "card", status := .approved
       approvedBy := some 99 }
     rfl (by decide)⟩

/-- Transporting `findInv` through a keyed in-place rewrite of the
investments list. -/
theorem findInv_eq_of_map (st2 st : St) (iid : Nat) (f : Investment → Investment)
    (hf : ∀ i, (f i).id = i.id) (inv : Investment)
    (h : st2.investments = st.investments.map (fun i => if i.id == iid then f i else i))
    (hfi : findInv st iid = some inv) :
    findInv st2 iid = some (f inv) := by
  unfold findInv
  rw [h, find?_update_inv st.investments iid f hf]
  unfold findInv at hfi
  rw [hfi]
  rfl

/-! ## Claim C7 -/

/-- C7: a failure inside the referral try-block of `approveInvestment`
(modelled by `referralOk := false`: the thrown error is caught and logged,
so none of the referral effects land) never fails or rolls back the
triggering approval — the handler still returns success, the investment ends
up active with fresh dates, and no user record (in particular no balance) is
touched by the failed referral step. -/
theorem C7_confirmed (st : St) (iid now : Nat) (inv : Investment) (plan : Plan) (u : User)
    (hfi : findInv st iid = some inv) (hs : inv.status = .pending)
    (hp : findPlan st inv.plan = some plan) (hu : findUser st inv.user = some u) :
    ∃ st2, approveInvestment st iid now false = .ok st2 ∧
      findInv st2 iid = some (activateInv now plan.duration inv) ∧
      st2.users = st.users := by
  rcases hrb : u.referredBy with _ | rid <;>
  · simp only [approveInvestment, hfi, hs, hp, hu, hrb, ne_eq, not_true_eq_false, if_false,
      ite_false, Bool.false_eq_true]
    exact ⟨_, rfl,
      findInv_eq_of_map _ st iid (activateInv now plan.duration) (fun i => rfl) inv
        (by simp [updateInv, activateInv]) hfi,
      rfl⟩

/-- C7 witness: approving pending investment 1 with the referral step failing
still succeeds, activates the investment, and touches no user record. -/
theorem C7_witness :
    ∃ st2, approveInvestment stInv 1 9 false = .ok st2 ∧
      findInv st2 1 = some (activateInv 9 planA.duration invPend) ∧
      st2.users = stInv.users :=
  C7_confirmed stInv 1 9 invPend planA alice rfl rfl rfl rfl

/-! ## Claim C8 -/

/-- C8: the Returns Calculator is the pure pair of formulas
`dailyEarnings = amount × dailyRate / 100`, `totalReturns = amount ×
totalRate / 100`: `calculateReturns` yields exactly those on any in-range
amount, and on the spec scenario (amount 10,000, dailyInterest 2,
totalInterest 120) both the plan method and `createAdvancedInvestment`
produce dailyEarnings 200 and totalReturns 12,000. -/
theorem C8_confirmed :
    (∀ (p : Plan) (amount : ℚ),
      ¬ (amount < p.minAmount ∨ amount > p.maxAmount) →
      ∃ r, p.calculateReturns amount = .ok r ∧
        r.dailyReturn = amount * p.dailyInterest / 100 ∧
        r.totalReturn = amount * p.totalInterest / 100) ∧
    (∃ r, planA.calculateReturns 10000 = .ok r ∧
      r.dailyReturn = 200 ∧ r.totalReturn = 12000) ∧
    (∃ st2, createAdvancedInvestment st0 10 1 10000 false 0 = .ok st2 ∧
      ∃ i, findInv st2 100 = some i ∧ i.dailyEarnings = 200 ∧ i.totalReturns = 12000) := by
  refine ⟨?_, ?_, ?_⟩
  · intro p amount h
    simp only [Plan.calculateReturns, h, ite_false, if_false]
    exact ⟨_, rfl, rfl, rfl⟩
  · refine ⟨_, rfl, ?_, ?_⟩
    · show (10000 : ℚ) * 2 / 100 = 200
      norm_num
    · show (10000 : ℚ) * 120 / 100 = 12000
      norm_num
  · refine ⟨_, rfl, _, rfl, ?_, ?_⟩
    · show (10000 : ℚ) * 2 / 100 = 200
      norm_num
    · show (10000 : ℚ) * 120 / 100 = 12000
      norm_num

/-- C8 witness: the general formula conjunct applied at the fixture plan and
amount 10,000. -/
theorem C8_witness :
    ∃ r, planA.calculateReturns 10000 = .ok r ∧
      r.dailyReturn = 10000 * planA.dailyInterest / 100 ∧
      r.totalReturn = 10000 * planA.totalInterest / 100 :=
  C8_confirmed.1 planA 10000 (by decide)

/-! ## Claim C9 -/

/-- C9: completing an active auto-renew investment marks the original
completed and appends a fresh Investment that is immediately `active` with
the same user, plan and amount (and carried-over computed returns), fresh
`start_date = now` and `end_date = now + duration` days; no user record
changes, so the completion credits no balance, and no ledger entry is
written. -/
theorem C9_confirmed (st : St) (iid now : Nat) (inv : Investment) (plan : Plan) (u : User)
    (hfi : findInv st iid = some inv) (hs : inv.status = .active)
    (har : inv.autoRenew = true)
    (hp : findPlan st inv.plan = some plan) (hu : findUser st inv.user = some u) :
    ∃ st2, updateInvestmentStatus st iid .completed now = .ok st2 ∧
      st2.investments = st.investments.map
          (fun i => if i.id == iid then { i with status := IStatus.completed } else i) ++
        [⟨st.nextId, inv.user, inv.plan, inv.amount, inv.dailyEarnings, inv.totalReturns,
          plan.duration, some now, some (now + plan.duration * dayMs), true, .active⟩] ∧
      st2.users = st.users ∧ st2.txns = st.txns := by
  simp only [updateInvestmentStatus, hfi, hp, hu, hs, har, validTransition, Bool.not_true,
    Bool.not_false, if_false, if_true, ite_false, ite_true]
  exact ⟨_, rfl, by simp [updateInv], rfl, rfl⟩

/-- C9 witness: completing auto-renew investment 3 on the fixture spawns the
active clone (id 103) and leaves users and ledger untouched. -/
theorem C9_witness :
    ∃ st2, updateInvestmentStatus stInv 3 .completed 5 = .ok st2 ∧
      st2.investments = stInv.investments.map
          (fun i => if i.id == 3 then { i with status := IStatus.completed } else i) ++
        [⟨stInv.nextId, invRenew.user, invRenew.plan, invRenew.amount, invRenew.dailyEarnings,
          invRenew.totalReturns, planA.duration, some 5, some (5 + planA.duration * dayMs),
          true, .active⟩] ∧
      st2.users = stInv.users ∧ st2.txns = stInv.txns :=
  C9_confirmed stInv 3 5 invRenew planA alice rfl rfl rfl rfl rfl

/-! ## Claim C10 -/

/-- C10: completing an active non-auto-renew investment credits the user's
balance with the GROSS `total_returns` (not the net profit); the appended
`investment_earnings` entry likewise records `amount = total_returns`
(gross), while the net profit `total_returns - amount` is stored only in the
entry's `metadata.earnings`; the original investment is marked completed. -/
theorem C10_confirmed (st : St) (iid now : Nat) (inv : Investment) (plan : Plan) (u : User)
    (hfi : findInv st iid = some inv) (hs : inv.status = .active)
    (har : inv.autoRenew = false)
    (hp : findPlan st inv.plan = some plan) (hu : findUser st inv.user = some u) :
    ∃ st2, updateInvestmentStatus st iid .completed now = .ok st2 ∧
      balanceOf st2 inv.user = balanceOf st inv.user + inv.totalReturns ∧
      st2.txns = st.txns ++
        [⟨st.nextId, inv.user, .investmentEarnings, inv.totalReturns, .completed,
          { investmentId := some iid, principal := some inv.amount,
            earnings := some (inv.totalReturns - inv.amount) }⟩] ∧
      findInv st2 iid = some { inv with autoRenew := false, status := IStatus.completed } := by
  simp only [updateInvestmentStatus, hfi, hp, hu, hs, har, validTransition, Bool.not_true,
    Bool.not_false, if_false, if_true, ite_false, ite_true]
  refine ⟨_, rfl, ?_, rfl, ?_⟩
  · simp only [balanceOf, findUser, updateUser, updateInv]
    rw [find?_update_user st.users inv.user
      (fun v => { v with balance := v.balance + inv.totalReturns }) (fun v => rfl)]
    unfold findUser at hu
    rw [hu]
    rfl
  · rw [← har]
    exact findInv_eq_of_map _ st iid (fun i => { i with status := IStatus.completed })
      (fun i => rfl) inv (by simp [updateInv, updateUser]) hfi

/-- C10 witness: completing investment 2 (amount 10,000, totalReturns 12,000)
credits +12,000 gross and records the entry with gross amount 12,000 and
metadata earnings 12,000 − 10,000. -/
theorem C10_witness :
    ∃ st2, updateInvestmentStatus stInv 2 .completed 5 = .ok st2 ∧
      balanceOf st2 10 = balanceOf stInv 10 + invActive.totalReturns ∧
      st2.txns = stInv.txns ++
        [⟨stInv.nextId, invActive.user, .investmentEarnings, invActive.totalReturns, .completed,
          { investmentId := some 2, principal := some invActive.amount,
            earnings := some (invActive.totalReturns - invActive.amount) }⟩] ∧
      findInv st2 2 = some { invActive with status := IStatus.completed } :=
  C10_confirmed stInv 2 5 invActive planA alice rfl rfl rfl rfl rfl
